import Mathlib

/-!
Verification of the LuaWeb HTTP service layer (routing, middleware,
static file resolution, connection handling) and its database bridge
(health checking, the companion process's open endpoint, query decoding),
shallowly embedded from the C++ sources (src/unnamed/part_004,
src/LuaWeb/src/core/database.cpp) and the companion Node process
(src/LuaWeb/database/server.js).

Strings are treated as sequences of characters; the repository only
handles byte strings, and on ASCII data the two views agree.
-/

namespace luaweb

/-! ## Pattern compiler (Server::compile_pattern)

The C++ routine scans the route template left to right and builds an
anchored ECMAScript regex string: a ":name" segment (all characters up
to the next slash) becomes the capturing group "([^/]+)" and the name is
pushed onto param_names; "*" becomes ".*"; every other character is a
literal (regex metacharacters are escaped, which does not change which
character the produced regex matches). We embed the produced regex as a
token list: one token per literal character, one per capturing group,
one per wildcard. -/

inductive Tok where
  | lit (c : Char)
  | param (name : String)
  | star
deriving DecidableEq

/-- The scan of Server::compile_pattern. The second argument is the
state of the scanner: none when outside a ":name" segment, some acc
(accumulated name characters, reversed) while inside one. In the C++
code the same state is carried by the index arithmetic around the inner
while loop that swallows every character up to the next slash. -/
def compile_scan : List Char → Option (List Char) → List Tok × List String
  | [], none => ([], [])
  | [], some acc =>
      let n := String.mk acc.reverse
      ([Tok.param n], [n])
  | c :: rest, some acc =>
      if c = '/' then
        let n := String.mk acc.reverse
        let p := compile_scan rest none
        (Tok.param n :: Tok.lit '/' :: p.1, n :: p.2)
      else compile_scan rest (some (c :: acc))
  | c :: rest, none =>
      if c = ':' then compile_scan rest (some [])
      else if c = '*' then
        let p := compile_scan rest none
        (Tok.star :: p.1, p.2)
      else
        let p := compile_scan rest none
        (Tok.lit c :: p.1, p.2)

/-- Server::compile_pattern: the compiled matcher as a token list plus
the parameter names in declaration order. -/
def compile_pattern (pattern : String) : List Tok × List String :=
  compile_scan pattern.toList none

/-! ## Matching (std::regex_match on the compiled pattern)

std::regex uses backtracking with greedy quantifiers: a quantifier takes
as many characters as possible, giving back characters only when the
rest of the pattern cannot otherwise match. regex_match anchors at both
ends (and the produced regex carries an explicit leading caret and
trailing dollar as well). toksCaps returns the list of captured strings
of the overall match, or none when the path does not match. -/

/-- Backtracking search for the repetition count of a greedy quantifier:
try the count k+1 first, then k, ..., down to 1. Used for the one-or-more
group produced by a ":name" segment. -/
def tryDowns (f : Nat → Option (List String)) : Nat → Option (List String)
  | 0 => none
  | k + 1 =>
      match f (k + 1) with
      | some r => some r
      | none => tryDowns f k

/-- Backtracking search trying counts k, k-1, ..., down to 0. Used for
the ".*" produced by a "*" wildcard (which may match nothing). -/
def tryDowns0 (f : Nat → Option (List String)) : Nat → Option (List String)
  | 0 => f 0
  | k + 1 =>
      match f (k + 1) with
      | some r => some r
      | none => tryDowns0 f k

/-- Anchored match of the compiled token list against a path, returning
the captured groups: a literal consumes exactly its character, a
capturing group one or more non-slash characters (greedy), a wildcard
any run of characters (greedy, not capturing). The whole path must be
consumed, mirroring std::regex_match on the caret-dollar anchored
pattern. -/
def toksCaps : List Tok → List Char → Option (List String)
  | [], [] => some []
  | [], _ :: _ => none
  | Tok.lit _ :: _, [] => none
  | Tok.lit c :: ts, d :: ds =>
      if c = d then toksCaps ts ds else none
  | Tok.param _ :: ts, ds =>
      let run := (ds.takeWhile (fun c => c ≠ '/')).length
      tryDowns
        (fun k => (toksCaps ts (ds.drop k)).map
          (fun caps => String.mk (ds.take k) :: caps)) run
  | Tok.star :: ts, ds =>
      tryDowns0 (fun k => toksCaps ts (ds.drop k)) ds.length

/-! ## Request and Response (request.hpp, response.cpp)

Only the parts of the two classes that the routing pipeline touches are
embedded: the request carries method, path and the path-parameter map;
the response carries status, headers, body and the sent flag (the C++
member names with their trailing underscores are kept). The C++ maps are
std::unordered_map; we model them as association lists with
replace-or-append assignment, which preserves the lookup semantics. -/

structure Request where
  method : String
  path : String
  params : List (String × String)
deriving DecidableEq

structure Response where
  status_code_ : Nat
  status_text_ : String
  headers_ : List (String × String)
  body_ : String
  sent_ : Bool
deriving DecidableEq

/-- Assignment into an association list: replace the first binding of the
key, or append a new one (std::unordered_map operator[] assignment). -/
def set_assoc : List (String × String) → String → String → List (String × String)
  | [], k, v => [(k, v)]
  | (k0, v0) :: rest, k, v =>
      if k0 = k then (k, v) :: rest else (k0, v0) :: set_assoc rest k v

/-- Response::get_status_text. -/
def get_status_text (code : Nat) : String :=
  if code = 200 then "OK"
  else if code = 201 then "Created"
  else if code = 204 then "No Content"
  else if code = 301 then "Moved Permanently"
  else if code = 302 then "Found"
  else if code = 304 then "Not Modified"
  else if code = 400 then "Bad Request"
  else if code = 401 then "Unauthorized"
  else if code = 403 then "Forbidden"
  else if code = 404 then "Not Found"
  else if code = 405 then "Method Not Allowed"
  else if code = 500 then "Internal Server Error"
  else if code = 502 then "Bad Gateway"
  else if code = 503 then "Service Unavailable"
  else if code = 429 then "Too Many Requests"
  else "Unknown"

/-- The Response constructor: 200 OK, the two default headers, empty
body, not sent. -/
def Response.init : Response :=
  { status_code_ := 200
    status_text_ := "OK"
    headers_ := [("Content-Type", "text/html; charset=utf-8"), ("Connection", "close")]
    body_ := ""
    sent_ := false }

/-- Response::status. -/
def Response.status (r : Response) (code : Nat) : Response :=
  { r with status_code_ := code, status_text_ := get_status_text code }

/-- Response::header. -/
def Response.header (r : Response) (key value : String) : Response :=
  { r with headers_ := set_assoc r.headers_ key value }

/-- Response::body. -/
def Response.body (r : Response) (content : String) : Response :=
  { r with body_ := content }

/-- Response::text: plain-text content type, body set to the content. -/
def Response.text (r : Response) (content : String) : Response :=
  { r with
    headers_ := set_assoc r.headers_ "Content-Type" "text/plain; charset=utf-8"
    body_ := content }

/-- Response::mark_sent. -/
def Response.mark_sent (r : Response) : Response :=
  { r with sent_ := true }

/-! ## Routes and the router (Server::route, Server::match_route,
the route loop of Server::dispatch_request)

A handler mutates the response and either returns normally or throws;
the dispatch loop catches std::exception and turns its message into a
500 response. A handler is embedded as a function from the request and
the response state to either the new response state (normal return) or
the response state at the throw point together with the exception
message. -/

inductive HandlerResult where
  | ok (res : Response)
  | thrown (res : Response) (msg : String)

structure Route where
  method : String
  pattern : String
  toks : List Tok
  param_names : List String
  handler : Request → Response → HandlerResult

/-- Server::route: compile the template and append to the route table. -/
def make_route (method pattern : String)
    (handler : Request → Response → HandlerResult) : Route :=
  let c := compile_pattern pattern
  { method := method, pattern := pattern, toks := c.1, param_names := c.2
    handler := handler }

/-- Server::match_route: regex-match the path and, on success, write the
captured groups into the parameter map under the route's declared names
(group i+1 goes to name i, exactly the zip of the two lists). -/
def match_route (r : Route) (path : String) (params0 : List (String × String)) :
    Bool × List (String × String) :=
  match toksCaps r.toks path.toList with
  | some caps =>
      (true, (r.param_names.zip caps).foldl (fun ps nv => set_assoc ps nv.1 nv.2) params0)
  | none => (false, params0)

/-- One route entry matches the request: same method and the compiled
matcher accepts the path (the order of the two checks in the dispatch
loop). -/
def matchesRoute (req : Request) (r : Route) : Bool :=
  r.method == req.method && (match_route r req.path req.params).1

/-- The first matching route of the table together with its position, in
registration order. -/
def first_match (req : Request) : List Route → Option (Nat × Route)
  | [] => none
  | r :: rest =>
      if matchesRoute req r then some (0, r)
      else (first_match req rest).map (fun p => (p.1 + 1, p.2))

/-- The body of the dispatch loop once a route matched: store the
extracted parameters into the request, invoke the handler inside the
try block, and on a throw build the 500 response from the exception
message. -/
def invoke_route (r : Route) (req : Request) (res : Response) : Response :=
  let mr := match_route r req.path req.params
  match r.handler { req with params := mr.2 } res with
  | .ok res1 => res1
  | .thrown res1 msg => (res1.status 500).text ("Internal Server Error: " ++ msg)

/-! ## Static mounts (Server::serve_static, Server::try_serve_static)

The filesystem is embedded as a list of (path, contents) pairs of the
existing regular files; a lookup is the combined exists and
is_regular_file and ifstream-open check. try_serve_static additionally
reports which files it read, so that the claims about file access can be
stated. -/

structure StaticMount where
  urlPrefix : String
  directory : String
deriving DecidableEq

def FileSystem := List (String × String)

def fs_lookup : List (String × String) → String → Option String
  | [], _ => none
  | (p, c) :: rest, q => if p = q then some c else fs_lookup rest q

/-- Character-list prefix test, the semantics of
req.path.find(mount.url_prefix) == 0. -/
def starts_with (p s : String) : Bool :=
  p.toList.isPrefixOf s.toList

/-- Substring occurrence test on character lists. -/
def contains_sub (pat : List Char) : List Char → Bool
  | [] => pat.isEmpty
  | c :: rest => pat.isPrefixOf (c :: rest) || contains_sub pat rest

/-- std::string::find("..") != npos on the remainder. -/
def containsDotDot (s : String) : Bool :=
  contains_sub ['.', '.'] s.toList

/-- Server::get_mime_type: the extension table with the generic binary
default. -/
def get_mime_type (path : String) : String :=
  let rev := path.toList.reverse
  let extRev := rev.takeWhile (fun c => c ≠ '.')
  if extRev.length = rev.length then "application/octet-stream"
  else
    let ext := String.mk ('.' :: extRev.reverse.map Char.toLower)
    if ext = ".html" then "text/html; charset=utf-8"
    else if ext = ".htm" then "text/html; charset=utf-8"
    else if ext = ".css" then "text/css; charset=utf-8"
    else if ext = ".js" then "application/javascript; charset=utf-8"
    else if ext = ".json" then "application/json; charset=utf-8"
    else if ext = ".xml" then "application/xml; charset=utf-8"
    else if ext = ".txt" then "text/plain; charset=utf-8"
    else if ext = ".md" then "text/markdown; charset=utf-8"
    else if ext = ".png" then "image/png"
    else if ext = ".jpg" then "image/jpeg"
    else if ext = ".jpeg" then "image/jpeg"
    else if ext = ".gif" then "image/gif"
    else if ext = ".svg" then "image/svg+xml"
    else if ext = ".ico" then "image/x-icon"
    else if ext = ".webp" then "image/webp"
    else if ext = ".woff" then "font/woff"
    else if ext = ".woff2" then "font/woff2"
    else if ext = ".ttf" then "font/ttf"
    else if ext = ".otf" then "font/otf"
    else if ext = ".eot" then "application/vnd.ms-fontobject"
    else if ext = ".pdf" then "application/pdf"
    else if ext = ".zip" then "application/zip"
    else if ext = ".wasm" then "application/wasm"
    else "application/octet-stream"

/-- The remainder of the request path after a mount's URL prefix
(req.path.substr(mount.url_prefix.length())). -/
def static_remainder (m : StaticMount) (path : String) : String :=
  String.mk (path.toList.drop m.urlPrefix.toList.length)

/-- Server::try_serve_static: walk the mounts in registration order; for
the first whose prefix starts the path, take the remainder (an empty or
root remainder becomes /index.html), reject a remainder containing ".."
with 403, otherwise serve directory ++ remainder when that file exists,
marking the response sent; when it does not exist, keep walking. The
third component lists the files read. -/
def try_serve_static (mounts : List StaticMount) (fs : FileSystem)
    (req : Request) (res : Response) : Bool × Response × List String :=
  match mounts with
  | [] => (false, res, [])
  | m :: rest =>
      if starts_with m.urlPrefix req.path then
        let rel0 := static_remainder m req.path
        let rel := if rel0 = "" ∨ rel0 = "/" then "/index.html" else rel0
        if containsDotDot rel then (true, (res.status 403).text "Forbidden", [])
        else
          let fp := m.directory ++ rel
          match fs_lookup fs fp with
          | some content =>
              (true,
               ((res.header "Content-Type" (get_mime_type fp)).body content).mark_sent,
               [fp])
          | none => try_serve_static rest fs req res
      else try_serve_static rest fs req res

/-- Server::serve_static's normalisation of the directory argument: pop
the final character when it is a slash (a single pop_back guarded by a
single test). -/
def serve_static_store (directory : String) : String :=
  match directory.toList.getLast? with
  | some '/' => String.mk directory.toList.dropLast
  | _ => directory

/-- Server::serve_static: build the mount that is appended to the mount
table. -/
def serve_static_mount (urlPre directory : String) : StaticMount :=
  { urlPrefix := urlPre, directory := serve_static_store directory }

/-! ## Middleware chain and dispatch (Server::use,
Server::run_middleware_chain, Server::dispatch_request)

A C++ middleware is an arbitrary function of the request, the response
and a zero-argument continuation. It is embedded by its observable
behaviour: a mutation of the response before the decision point (pre),
the decision whether to invoke the continuation (callNext), and a
mutation applied after the continuation returns (post). The executed
stages are recorded as a trace of events so that claims about which
handlers run can be stated. -/

structure MW where
  pre : Request → Response → Response
  callNext : Request → Response → Bool
  post : Request → Response → Response

inductive Event where
  | mw (i : Nat)
  | staticStage
  | router
  | handler (i : Nat)
deriving DecidableEq

/-- The route loop at the end of Server::dispatch_request: skip entries
with a different method, dispatch to the first whose matcher accepts the
path (recording which handler ran), and produce 404 Not Found when the
table is exhausted. -/
def route_loop (req : Request) : List Route → Nat → Response → Response × List Event
  | [], _, res => ((res.status 404).text "Not Found", [])
  | r :: rest, i, res =>
      if r.method == req.method then
        if (match_route r req.path req.params).1 then
          (invoke_route r req res, [Event.handler i])
        else route_loop req rest (i + 1) res
      else route_loop req rest (i + 1) res

/-- The final stage handed to the middleware chain by
Server::dispatch_request: stop if a middleware already sent the
response; for GET requests try the static mounts first; otherwise run
the route loop. -/
def final_handler (routes : List Route) (mounts : List StaticMount)
    (fs : FileSystem) (req : Request) (res : Response) : Response × List Event :=
  if res.sent_ then (res, [])
  else if req.method == "GET" then
    let st := try_serve_static mounts fs req res
    if st.1 then (st.2.1, [Event.staticStage])
    else
      let p := route_loop req routes 0 res
      (p.1, Event.router :: p.2)
  else
    let p := route_loop req routes 0 res
    (p.1, Event.router :: p.2)

/-- Server::run_middleware_chain: past the end of the list run the final
stage; otherwise halt if the response was already sent, else run the
middleware at the cursor, passing it a continuation that recurses at the
next index. The list argument is the suffix of the middleware table from
the cursor i, which the C++ code addresses as middlewares_[index]. -/
def run_middleware_chain (req : Request)
    (final : Response → Response × List Event) :
    List MW → Nat → Response → Response × List Event
  | [], _, res => final res
  | m :: rest, i, res =>
      if res.sent_ then (res, [])
      else
        let r1 := m.pre req res
        if m.callNext req r1 then
          let p := run_middleware_chain req final rest (i + 1) r1
          (m.post req p.1, Event.mw i :: p.2)
        else (r1, [Event.mw i])

/-- Server::dispatch_request: the middleware chain from index 0 with the
static/router stage as the final handler. -/
def dispatch_request (mws : List MW) (routes : List Route)
    (mounts : List StaticMount) (fs : FileSystem) (req : Request)
    (res : Response) : Response × List Event :=
  run_middleware_chain req (final_handler routes mounts fs req) mws 0 res

/-- The indices of the route handlers that executed, in order. -/
def handler_idxs (evs : List Event) : List Nat :=
  evs.filterMap (fun e => match e with | Event.handler i => some i | _ => none)

/-- How many route handlers executed. -/
def handler_count (evs : List Event) : Nat :=
  (handler_idxs evs).length

/-! ## Connection handling (Server::handle_client, Server::run)

handle_client performs a single read of at most 4095 bytes into a
4096-byte buffer, NUL-terminates it and takes the C string (so data
stops at the first NUL byte), closes without doing anything further when
nothing was read, and otherwise parses the request and runs the
pipeline once. The parser and the pipeline are passed in as functions;
the claims here concern what reaches them. -/

def read_raw (input : List Char) : List Char :=
  (input.take 4095).takeWhile (fun c => c ≠ Char.ofNat 0)

def handle_client (parse : String → Request) (pipeline : Request → Response)
    (input : List Char) : Option Response :=
  let raw := read_raw input
  if raw.isEmpty then none
  else some (pipeline (parse (String.mk raw)))

/-- The accept loop: every connection is processed fully, one after the
other, by handle_client. -/
def serve_connections (parse : String → Request) (pipeline : Request → Response)
    (inputs : List (List Char)) : List (Option Response) :=
  inputs.map (handle_client parse pipeline)

/-! ## JSON values (the nlohmann::json AST as the bridge sees it)

nlohmann::json stores a parsed number either as an integer (no fraction
or exponent in the token) or as a floating-point value, and the C++
decoding code branches on that stored kind; the AST below mirrors the
stored kinds. Objects keep their fields as an ordered list of pairs with
distinct keys. A floating-point payload is represented as a rational,
which is exact for every value the bridge exchanges. -/

inductive Json where
  | null
  | bool (b : Bool)
  | int (n : Int)
  | float (x : Rat)
  | str (s : String)
  | arr (elems : List Json)
  | obj (fields : List (String × Json))

def lookup_field : List (String × Json) → String → Option Json
  | [], _ => none
  | (k, v) :: rest, key => if k = key then some v else lookup_field rest key

/-- nlohmann json.value(key, default) at type bool: the default when the
key is absent, the stored boolean when present, and a thrown type error
(the error case) when the json is not an object or the value not a
boolean. -/
def jsonValueBool (j : Json) (key : String) (dflt : Bool) : Except Unit Bool :=
  match j with
  | .obj fields =>
      match lookup_field fields key with
      | none => .ok dflt
      | some (.bool b) => .ok b
      | some _ => .error ()
  | _ => .error ()

/-- nlohmann json.value(key, default) at type string. -/
def jsonValueStr (j : Json) (key : String) (dflt : String) : Except Unit String :=
  match j with
  | .obj fields =>
      match lookup_field fields key with
      | none => .ok dflt
      | some (.str s) => .ok s
      | some _ => .error ()
  | _ => .error ()

/-! ## DatabaseBridge (database.cpp)

check_health issues an HTTP GET to /health and inspects the JSON reply.
The network and the JSON parser are summarised by the function's
argument: none stands for an empty response (connection failure) or a
reply whose body does not parse, some j for a reply whose body parsed as
j; each of these paths returns false exactly as the C++ try/catch
does. -/

/-- DatabaseBridge::check_health. -/
def check_health (port : Nat) (server_id : String) (resp : Option Json) : Bool :=
  if port = 0 then false
  else
    match resp with
    | none => false
    | some j =>
        match jsonValueBool j "ok" false with
        | .error _ => false
        | .ok ok =>
            match jsonValueStr j "serverId" "" with
            | .error _ => false
            | .ok sid => if !ok || sid ≠ server_id then false else true

/-- The health polling loop of DatabaseBridge::start: up to the attempt
budget, probe the health endpoint; on the first success the instance is
marked running and start succeeds. The list holds the successive
replies; the boolean accumulator is the running_ flag. Returns (start
succeeded, running_ afterwards). -/
def health_poll (port : Nat) (sid : String) :
    List (Option Json) → Bool → Bool × Bool
  | [], running => (false, running)
  | r :: rs, running =>
      if check_health port sid r then (true, true)
      else health_poll port sid rs running

/-- DatabaseBridge::start's poll phase: at most 50 attempts. -/
def bridge_start_poll (port : Nat) (sid : String) (polls : List (Option Json))
    (running : Bool) : Bool × Bool :=
  health_poll port sid (polls.take 50) running

/-! ## The companion process's /open endpoint (database/server.js)

The companion keeps a Map of open handles (insertion-ordered), a Set of
absolute paths in use, and a handle-id counter. Path resolution follows
resolveDbPath: an empty path becomes default.db, an absolute path (a
leading slash, path.isAbsolute on a POSIX host) is used verbatim, any
other path goes under the per-server storage directory
cwd/__DBWEB__/Dbserver_<id>/ (path.join is embedded as plain separator
concatenation; none of the paths involved need normalisation). -/

structure DbInfo where
  path : String
  isAbsolute : Bool
deriving DecidableEq

structure CompanionState where
  databases : List (String × DbInfo)
  absolutePathsInUse : List String
  dbIdCounter : Nat
deriving DecidableEq

def isAbsolutePath (p : String) : Bool :=
  starts_with "/" p

/-- server.js resolveDbPath. -/
def resolveDbPath (cwd sid p : String) : String × Bool :=
  let p1 := if p = "" then "default.db" else p
  if isAbsolutePath p1 then (p1, true)
  else (cwd ++ "/__DBWEB__/Dbserver_" ++ sid ++ "/" ++ p1, false)

inductive OpenReply where
  | ok (id : String) (path : String) (reused : Bool)
  | conflict (error : String)
deriving DecidableEq

/-- The /open request handler of server.js: resolve the path; reject an
absolute path already in the in-use set with a 409 conflict; otherwise
return the existing handle for a path this process already holds open,
marked reused; otherwise open a fresh handle, remember it (and the
absolute path, if absolute), and return it without the reused mark. -/
def handle_open (cwd sid : String) (st : CompanionState) (reqPath : String) :
    OpenReply × CompanionState :=
  let rp := resolveDbPath cwd sid reqPath
  let dbPath := rp.1
  let isAbs := rp.2
  if isAbs && st.absolutePathsInUse.contains dbPath then
    (.conflict ("Database already in use: " ++ dbPath), st)
  else
    match st.databases.find? (fun e => e.2.path == dbPath) with
    | some e => (.ok e.1 dbPath true, st)
    | none =>
        let id := "db_" ++ toString (st.dbIdCounter + 1)
        (.ok id dbPath false,
         { databases := st.databases ++ [(id, { path := dbPath, isAbsolute := isAbs })]
           absolutePathsInUse :=
             if isAbs then dbPath :: st.absolutePathsInUse else st.absolutePathsInUse
           dbIdCounter := st.dbIdCounter + 1 })

/-! ## Database::query response decoding (database.cpp)

Each cell of each returned row is re-typed from the JSON value's stored
shape: null, integer-stored number, other number, string; a value of any
other shape has no branch in the C++ chain and the column is dropped.
Iteration over a json value (the range-for and items()) is embedded with
nlohmann's semantics: an array yields its elements (items() keys them by
index), an object its values (items() keys them by field name), null
yields nothing, and any other value yields itself once (items() gives it
an empty key). -/

inductive DbValue where
  | null
  | int (n : Int)
  | double (x : Rat)
  | str (s : String)
deriving DecidableEq

def DbRow := List (String × DbValue)
deriving DecidableEq

def DbResult := List (List (String × DbValue))
deriving DecidableEq

/-- The type-dispatch chain of Database::query on one cell. -/
def decode_cell : Json → Option DbValue
  | .null => some .null
  | .int n => some (.int n)
  | .float x => some (.double x)
  | .str s => some (.str s)
  | _ => none

/-- nlohmann items(): key-value iteration over one row. -/
def jsonItems : Json → List (String × Json)
  | .obj fields => fields
  | .arr xs => (xs.enum.map (fun p => (toString p.1, p.2)))
  | .null => []
  | v => [("", v)]

/-- One row of the query response: every cell whose shape has a branch
is kept under its column name, the rest are dropped. -/
def decode_row (row : Json) : List (String × DbValue) :=
  (jsonItems row).filterMap (fun kv => (decode_cell kv.2).map (fun d => (kv.1, d)))

/-- nlohmann range-for over a json value. -/
def jsonElements : Json → List Json
  | .arr xs => xs
  | .obj fields => fields.map (fun kv => kv.2)
  | .null => []
  | v => [v]

/-- The response-decoding tail of Database::query: an empty reply is the
connection-failure error; a reply with ok true yields the decoded rows
of its rows member (absent rows reads as null and yields no rows); ok
false carries the error message; a shape that would make the C++ value
lookups throw ends in the parse-error message. Returns (rows,
last_error). -/
def database_query_decode (resp : Option Json) :
    List (List (String × DbValue)) × Option String :=
  match resp with
  | none => ([], some "Failed to execute query")
  | some j =>
      match jsonValueBool j "ok" false with
      | .error _ => ([], some "JSON parse error")
      | .ok true =>
          let rowsNode :=
            match j with
            | .obj fields => (lookup_field fields "rows").getD .null
            | _ => .null
          ((jsonElements rowsNode).map decode_row, none)
      | .ok false =>
          match jsonValueStr j "error" "Unknown error" with
          | .ok e => ([], some e)
          | .error _ => ([], some "JSON parse error")

/-! ## Derived notions used in the statements -/

/-- The parameter names carried by the capturing groups of a compiled
token list, in group order. -/
def tok_names (ts : List Tok) : List String :=
  ts.filterMap (fun t => match t with | Tok.param n => some n | _ => none)

/-- The first mount whose URL prefix starts the request path, in
registration order: the mount the static resolution loop considers. -/
def first_mount : List StaticMount → String → Option StaticMount
  | [], _ => none
  | m :: rest, path =>
      if starts_with m.urlPrefix path then some m else first_mount rest path

/-! ## Concrete instances used by the witnesses -/

def greet_route : Route := make_route "GET" "/greet/:name" (fun _ r => .ok r)

def c1_handler_a : Request → Response → HandlerResult := fun _ r => .ok (r.text "A")

def c1_handler_b : Request → Response → HandlerResult := fun _ r => .ok (r.text "B")

def c1_r0 : Route := make_route "GET" "/dup" c1_handler_a

def c1_r1 : Route := make_route "GET" "/dup" c1_handler_b

def c1_routes : List Route := [c1_r0, c1_r1]

def c2_handler : Request → Response → HandlerResult := fun _ r => .thrown r "boom"

def c2_route : Route := make_route "GET" "/boom" c2_handler

def c3_mw : MW :=
  { pre := fun _ r => (r.text "early").mark_sent
    callNext := fun _ _ => false
    post := fun _ r => r }

def c3_route : Route := make_route "GET" "/later" (fun _ r => .ok r)

def c4_mount : StaticMount := serve_static_mount "/public" "./assets"

def c5_reply : Json := Json.obj [("ok", Json.bool true), ("serverId", Json.str "other")]

def c6_st1 : CompanionState := (handle_open "/cw" "srv" ⟨[], [], 0⟩ "").2

def c10_parse : String → Request := fun _ => { method := "GET", path := "/", params := [] }

def c10_pipeline : Request → Response := fun _ => Response.init

/-! ## Helper lemmas -/

theorem takeWhile_all {α} (p : α → Bool) :
    ∀ (l : List α), (∀ c ∈ l, p c = true) → l.takeWhile p = l := by
  intro l h
  induction l with
  | nil => rfl
  | cons c rest ih =>
      have hc : p c = true := h c (List.mem_cons_self c rest)
      simp only [List.takeWhile_cons, hc, if_true]
      exact congrArg (c :: ·) (ih fun d hd => h d (List.mem_cons_of_mem c hd))

theorem health_poll_all_fail (port : Nat) (sid : String) :
    ∀ (l : List (Option Json)) (running : Bool),
      (∀ r ∈ l, check_health port sid r = false) →
      health_poll port sid l running = (false, running) := by
  intro l
  induction l with
  | nil => intro running _; rfl
  | cons r rs ih =>
      intro running h
      have hr : check_health port sid r = false := h r (List.mem_cons_self r rs)
      simp only [health_poll, hr, Bool.false_eq_true, if_false]
      exact ih running fun x hx => h x (List.mem_cons_of_mem r hx)

/-! ## Claims -/

/-- C5: the bridge health check succeeds only if the health response
parses, its ok field is true and its serverId equals the instance's
logical server id; a response whose serverId differs fails the check
even with ok true, and a poll whose responses all fail never marks the
instance running. -/
theorem C5_health_id_must_match :
    ∀ (port : Nat) (sid : String) (resp : Option Json) (j : Json)
      (polls : List (Option Json)) (running : Bool),
      (check_health port sid resp = true →
        port ≠ 0 ∧ ∃ jj, resp = some jj
          ∧ jsonValueBool jj "ok" false = .ok true
          ∧ jsonValueStr jj "serverId" "" = .ok sid)
      ∧ (∀ s, jsonValueStr j "serverId" "" = .ok s → s ≠ sid →
          check_health port sid (some j) = false)
      ∧ ((∀ r ∈ polls, check_health port sid r = false) →
          bridge_start_poll port sid polls running = (false, running)) := by
  intro port sid resp j polls running
  refine ⟨?_, ?_, ?_⟩
  · intro h
    by_cases hp : port = 0
    · simp [check_health, hp] at h
    · cases resp with
      | none => simp [check_health, hp] at h
      | some jj =>
          refine ⟨hp, jj, rfl, ?_⟩
          cases hb : jsonValueBool jj "ok" false with
          | error e => simp [check_health, hp, hb] at h
          | ok ok =>
              cases hs : jsonValueStr jj "serverId" "" with
              | error e => simp [check_health, hp, hb, hs] at h
              | ok sid0 =>
                  simp only [check_health, hp, if_false, hb, hs] at h
                  by_cases hok : ok = true
                  · by_cases hsid : sid0 = sid
                    · subst hok; subst hsid; exact ⟨rfl, rfl⟩
                    · simp [hok, hsid] at h
                  · simp [Bool.not_eq_true] at hok
                    simp [hok] at h
  · intro s hs hne
    by_cases hp : port = 0
    · simp [check_health, hp]
    · cases hb : jsonValueBool j "ok" false with
      | error e => simp [check_health, hp, hb]
      | ok ok => simp [check_health, hp, hb, hs, hne]
  · intro hall
    unfold bridge_start_poll
    exact health_poll_all_fail port sid _ running
      fun r hr => hall r (List.take_subset 50 polls hr)

theorem C5_witness :
    check_health 4321 "mine" (some c5_reply) = false
    ∧ bridge_start_poll 4321 "mine" [some c5_reply] false = (false, false) := by
  constructor
  · exact (C5_health_id_must_match 4321 "mine" none c5_reply [] false).2.1
      "other" rfl (by decide)
  · refine (C5_health_id_must_match 4321 "mine" none c5_reply [some c5_reply] false).2.2 ?_
    intro r hr
    have hr1 : r = some c5_reply := by simpa using hr
    subst hr1
    exact (C5_health_id_must_match 4321 "mine" none c5_reply [] false).2.1
      "other" rfl (by decide)

/-- C6 counterexample: against the same companion process, opening the
absolute path /shared.db a second time does not return the existing
handle as reused; it is rejected with the 409 conflict, because the
in-use check runs before the reuse check and the process's own open
handle already put the path into the in-use set. -/
theorem C6_counterexample :
    (handle_open "/cw" "s1"
        ((handle_open "/cw" "s1" ⟨[], [], 0⟩ "/shared.db").2) "/shared.db").1
      = OpenReply.conflict "Database already in use: /shared.db" := by decide

/-- C6 (amended): for every path whose resolution is not
filesystem-absolute (including the empty path, which resolves to
default.db under the per-server directory), an /open for a path the
companion already holds open returns the existing handle id with
reused=true and leaves the state unchanged, creating no duplicate
connection. -/
theorem C6_reuse_for_relative :
    ∀ (cwd sid : String) (st : CompanionState) (p id : String) (info : DbInfo),
      (resolveDbPath cwd sid p).2 = false →
      st.databases.find? (fun e => e.2.path == (resolveDbPath cwd sid p).1)
        = some (id, info) →
      handle_open cwd sid st p = (.ok id (resolveDbPath cwd sid p).1 true, st) := by
  intro cwd sid st p id info habs hfind
  simp only [handle_open, habs, Bool.false_and, Bool.false_eq_true, if_false, hfind]

theorem C6_witness :
    handle_open "/cw" "srv" c6_st1 ""
      = (.ok "db_1" (resolveDbPath "/cw" "srv" "").1 true, c6_st1) := by
  exact C6_reuse_for_relative "/cw" "srv" c6_st1 "" "db_1"
    { path := (resolveDbPath "/cw" "srv" "").1, isAbsolute := false }
    (by decide) (by decide)

/-- C7: decoding a successful query response re-derives each cell's type
from the JSON value's own stored shape (null, integer-stored number,
other number, string; any other shape has no branch and the column is
dropped), and the response with ok true and rows [{id: 1, name: "a"}]
decodes to exactly one row with integer id 1 and string name "a". -/
theorem C7_query_decode_types :
    (∀ (fields : List (String × Json)),
        decode_row (.obj fields)
          = fields.filterMap (fun kv =>
              match kv.2 with
              | .null => some (kv.1, DbValue.null)
              | .int n => some (kv.1, DbValue.int n)
              | .float x => some (kv.1, DbValue.double x)
              | .str s => some (kv.1, DbValue.str s)
              | _ => none))
    ∧ database_query_decode (some (.obj [("ok", .bool true),
          ("rows", .arr [.obj [("id", .int 1), ("name", .str "a")]])]))
        = ([[("id", DbValue.int 1), ("name", DbValue.str "a")]], none) := by
  constructor
  · intro fields
    simp only [decode_row, jsonItems]
    refine List.filterMap_congr ?_
    intro kv _
    obtain ⟨k, v⟩ := kv
    cases v <;> rfl
  · decide

/-- C9 evidence: Server::serve_static pops at most one trailing slash,
so a directory argument ending in two separators is stored still ending
in a separator, although the code's own comment and the specified
invariant require the stored directory to have none (a single trailing
separator is handled correctly). -/
theorem C9_trailing_separator_kept :
    (serve_static_mount "/public" "./assets//").directory = "./assets/"
    ∧ (serve_static_mount "/public" "./assets//").directory.toList.getLast?
        = some '/'
    ∧ (serve_static_mount "/public" "./assets/").directory = "./assets" := by
  refine ⟨by decide, by decide, by decide⟩

/-- C10: per connection a single read into the 4096-byte buffer reaches
the parser: at most 4095 characters, always a prefix of the incoming
data (requests beyond the buffer are silently truncated to the first
4095 bytes), and an empty read closes the connection without building a
request or running the pipeline; when something was read, the pipeline
runs exactly once on the truncated data. -/
theorem C10_single_bounded_read :
    ∀ (parse : String → Request) (pipeline : Request → Response)
      (input : List Char),
      (read_raw input).length ≤ 4095
      ∧ (read_raw input) <+: input
      ∧ (input = [] → handle_client parse pipeline input = none)
      ∧ (Char.ofNat 0 ∉ input → read_raw input = input.take 4095)
      ∧ (read_raw input ≠ [] →
          handle_client parse pipeline input
            = some (pipeline (parse (String.mk (read_raw input))))) := by
  intro parse pipeline input
  refine ⟨?_, ?_, ?_, ?_, ?_⟩
  · calc (read_raw input).length
        ≤ (input.take 4095).length :=
          ( List.takeWhile_prefix _ : _ <+: input.take 4095).sublist.length_le
      _ ≤ 4095 := by rw [List.length_take]; exact min_le_left _ _
  · exact ( List.takeWhile_prefix _ : _ <+: input.take 4095).trans ( List.take_prefix _ _)
  · intro h; subst h; rfl
  · intro h
    unfold read_raw
    refine takeWhile_all _ _ ?_
    intro c hc
    have : c ∈ input := List.take_subset _ _ hc
    simp only [decide_eq_true_eq]
    intro heq; exact h (heq ▸ this)
  · intro h
    simp only [handle_client]
    rw [if_neg]
    simp only [List.isEmpty_iff]
    exact h

theorem not_matches_cases (req : Request) (r : Route)
    (hm : ¬matchesRoute req r = true) (hmeth : (r.method == req.method) = true) :
    (match_route r req.path req.params).1 = false := by
  cases hx : (match_route r req.path req.params).1
  · rfl
  · exact absurd (by simp [matchesRoute, hmeth, hx]) hm

theorem route_loop_of_first_match_none (req : Request) :
    ∀ (routes : List Route) (i : Nat) (res : Response),
      first_match req routes = none →
      route_loop req routes i res = ((res.status 404).text "Not Found", []) := by
  intro routes
  induction routes with
  | nil => intro i res _; rfl
  | cons r rest ih =>
      intro i res h
      unfold first_match at h
      by_cases hm : matchesRoute req r
      · simp [hm] at h
      · simp only [hm, Bool.false_eq_true, if_false, Option.map_eq_none'] at h
        unfold route_loop
        by_cases hmeth : (r.method == req.method) = true
        · simp only [hmeth, if_true, not_matches_cases req r hm hmeth,
            Bool.false_eq_true, if_false]
          exact ih (i + 1) res h
        · simp only [hmeth, Bool.false_eq_true, if_false]
          exact ih (i + 1) res h

theorem route_loop_of_first_match_some (req : Request) :
    ∀ (routes : List Route) (i : Nat) (res : Response) (j : Nat) (r : Route),
      first_match req routes = some (j, r) →
      route_loop req routes i res = (invoke_route r req res, [Event.handler (i + j)]) := by
  intro routes
  induction routes with
  | nil => intro i res j r h; simp [first_match] at h
  | cons r0 rest ih =>
      intro i res j r h
      unfold first_match at h
      by_cases hm : matchesRoute req r0
      · simp only [hm, if_true, Option.some.injEq, Prod.mk.injEq] at h
        obtain ⟨hj, hr⟩ := h
        subst hj; subst hr
        have hmeth : (r0.method == req.method) = true := by
          have h1 := hm; simp only [matchesRoute, Bool.and_eq_true] at h1
          exact h1.1
        have hmr : (match_route r0 req.path req.params).1 = true := by
          have h1 := hm; simp only [matchesRoute, Bool.and_eq_true] at h1
          exact h1.2
        unfold route_loop
        simp [hmeth, hmr]
      · simp only [hm, Bool.false_eq_true, if_false, Option.map_eq_some'] at h
        obtain ⟨⟨j1, r1⟩, hfm, heq⟩ := h
        simp only [Prod.mk.injEq] at heq
        obtain ⟨hj, hr⟩ := heq
        subst hj; subst hr
        unfold route_loop
        have hrec := ih (i + 1) res j1 r1 hfm
        have harith : i + 1 + j1 = i + (j1 + 1) := by omega
        by_cases hmeth : (r0.method == req.method) = true
        · simp only [hmeth, if_true, not_matches_cases req r0 hm hmeth,
            Bool.false_eq_true, if_false]
          rw [hrec, harith]
        · simp only [hmeth, Bool.false_eq_true, if_false]
          rw [hrec, harith]

theorem first_match_is_first (req : Request) :
    ∀ (routes : List Route) (j : Nat) (r : Route),
      first_match req routes = some (j, r) →
      routes[j]? = some r ∧ matchesRoute req r = true
        ∧ ∀ k r', k < j → routes[k]? = some r' → matchesRoute req r' = false := by
  intro routes
  induction routes with
  | nil => intro j r h; simp [first_match] at h
  | cons r0 rest ih =>
      intro j r h
      unfold first_match at h
      by_cases hm : matchesRoute req r0
      · simp only [hm, if_true, Option.some.injEq, Prod.mk.injEq] at h
        obtain ⟨hj, hr⟩ := h
        subst hj; subst hr
        exact ⟨by simp, hm, fun k r' hk => absurd hk (Nat.not_lt_zero k)⟩
      · simp only [hm, Bool.false_eq_true, if_false, Option.map_eq_some'] at h
        obtain ⟨⟨j1, r1⟩, hfm, heq⟩ := h
        simp only [Prod.mk.injEq] at heq
        obtain ⟨hj, hr⟩ := heq
        subst hj; subst hr
        obtain ⟨hget, hmatch, hbefore⟩ := ih j1 r1 hfm
        refine ⟨by simpa using hget, hmatch, ?_⟩
        intro k r' hk hget'
        cases k with
        | zero =>
            simp only [List.getElem?_cons_zero, Option.some.injEq] at hget'
            subst hget'
            cases hx : matchesRoute req r0
            · rfl
            · exact absurd hx hm
        | succ k1 =>
            simp only [List.getElem?_cons_succ] at hget'
            exact hbefore k1 r' (by omega) hget'

theorem handler_count_route_loop (req : Request) :
    ∀ (routes : List Route) (i : Nat) (res : Response),
      handler_count (route_loop req routes i res).2 ≤ 1 := by
  intro routes
  induction routes with
  | nil => intro i res; simp [route_loop, handler_count, handler_idxs]
  | cons r rest ih =>
      intro i res
      unfold route_loop
      by_cases hmeth : (r.method == req.method) = true
      · by_cases hmr : (match_route r req.path req.params).1 = true
        · simp [hmeth, hmr, handler_count, handler_idxs]
        · simp only [hmeth, if_true, hmr, Bool.false_eq_true, if_false]
          exact ih (i + 1) res
      · simp only [hmeth, Bool.false_eq_true, if_false]
        exact ih (i + 1) res

theorem handler_count_final (routes : List Route) (mounts : List StaticMount)
    (fs : FileSystem) (req : Request) (res : Response) :
    handler_count (final_handler routes mounts fs req res).2 ≤ 1 := by
  unfold final_handler
  by_cases hs : res.sent_ = true
  · simp [hs, handler_count, handler_idxs]
  · by_cases hg : (req.method == "GET") = true
    · by_cases hst : (try_serve_static mounts fs req res).1 = true
      · simp [hs, hg, hst, handler_count, handler_idxs]
      · simp only [hs, Bool.false_eq_true, if_false, hg, if_true, hst]
        simp only [handler_count, handler_idxs, List.filterMap_cons]
        exact handler_count_route_loop req routes 0 res
    · simp only [hs, Bool.false_eq_true, if_false, hg]
      simp only [handler_count, handler_idxs, List.filterMap_cons]
      exact handler_count_route_loop req routes 0 res

theorem handler_count_chain (req : Request)
    (final : Response → Response × List Event)
    (hfinal : ∀ r, handler_count (final r).2 ≤ 1) :
    ∀ (mws : List MW) (i : Nat) (res : Response),
      handler_count (run_middleware_chain req final mws i res).2 ≤ 1 := by
  intro mws
  induction mws with
  | nil => intro i res; exact hfinal res
  | cons m rest ih =>
      intro i res
      unfold run_middleware_chain
      by_cases hs : res.sent_ = true
      · simp [hs, handler_count, handler_idxs]
      · by_cases hc : m.callNext req (m.pre req res) = true
        · simp only [hs, Bool.false_eq_true, if_false, hc, if_true]
          simp only [handler_count, handler_idxs, List.filterMap_cons]
          exact ih (i + 1) (m.pre req res)
        · simp [hs, hc, handler_count, handler_idxs]

theorem chain_halts_when_sent (req : Request) (routes : List Route)
    (mounts : List StaticMount) (fs : FileSystem) :
    ∀ (mws : List MW) (i : Nat) (res : Response), res.sent_ = true →
      run_middleware_chain req (final_handler routes mounts fs req) mws i res
        = (res, []) := by
  intro mws i res h
  cases mws with
  | nil => simp [run_middleware_chain, final_handler, h]
  | cons m rest => simp [run_middleware_chain, h]

theorem dispatch_routes_only (routes : List Route) (fs : FileSystem)
    (req : Request) (out : Response × List Event)
    (h : route_loop req routes 0 Response.init = out) :
    dispatch_request [] routes [] fs req Response.init
      = (out.1, Event.router :: out.2) := by
  have hsent : Response.init.sent_ = false := rfl
  simp only [dispatch_request, run_middleware_chain, final_handler, hsent,
    Bool.false_eq_true, if_false, try_serve_static, h]
  by_cases hg : (req.method == "GET") = true
  · simp only [hg, if_true]
  · simp only [hg, Bool.false_eq_true, if_false]

theorem dispatch_routes_only_some (routes : List Route) (fs : FileSystem)
    (req : Request) (j : Nat) (r : Route)
    (h : first_match req routes = some (j, r)) :
    dispatch_request [] routes [] fs req Response.init
      = (invoke_route r req Response.init, [Event.router, Event.handler j]) := by
  have hloop := route_loop_of_first_match_some req routes 0 Response.init j r h
  rw [Nat.zero_add] at hloop
  exact dispatch_routes_only routes fs req _ hloop

theorem dispatch_routes_only_none (routes : List Route) (fs : FileSystem)
    (req : Request) (h : first_match req routes = none) :
    dispatch_request [] routes [] fs req Response.init
      = ((Response.init.status 404).text "Not Found", [Event.router]) := by
  have hloop := route_loop_of_first_match_none req routes 0 Response.init h
  exact dispatch_routes_only routes fs req _ hloop

/-- C1: at most one route handler executes per dispatched request in
every configuration; on a server with only routes, dispatch invokes
exactly the handler of the first route in registration order whose
method and compiled matcher accept the request (a route before it never
matches, later matching routes are never invoked), and produces the 404
response when no route matches. -/
theorem C1_first_match_wins :
    ∀ (routes : List Route) (mws : List MW) (mounts : List StaticMount)
      (fs : FileSystem) (req : Request) (res : Response),
      handler_count (dispatch_request mws routes mounts fs req res).2 ≤ 1
      ∧ (∀ j r, first_match req routes = some (j, r) →
          dispatch_request [] routes [] fs req Response.init
            = (invoke_route r req Response.init, [Event.router, Event.handler j])
          ∧ routes[j]? = some r ∧ matchesRoute req r = true
          ∧ ∀ k r', k < j → routes[k]? = some r' → matchesRoute req r' = false)
      ∧ (first_match req routes = none →
          dispatch_request [] routes [] fs req Response.init
            = ((Response.init.status 404).text "Not Found", [Event.router])) := by
  intro routes mws mounts fs req res
  refine ⟨?_, ?_, ?_⟩
  · exact handler_count_chain req _ (handler_count_final routes mounts fs req) mws 0 res
  · intro j r h
    obtain ⟨hget, hmatch, hbefore⟩ := first_match_is_first req routes j r h
    exact ⟨dispatch_routes_only_some routes fs req j r h, hget, hmatch, hbefore⟩
  · exact dispatch_routes_only_none routes fs req

theorem C1_witness :
    dispatch_request [] c1_routes [] [] { method := "GET", path := "/dup", params := [] }
        Response.init
      = (invoke_route c1_r0 { method := "GET", path := "/dup", params := [] }
          Response.init, [Event.router, Event.handler 0])
    ∧ dispatch_request [] c1_routes [] []
        { method := "GET", path := "/absent", params := [] } Response.init
      = ((Response.init.status 404).text "Not Found", [Event.router]) := by
  constructor
  · exact ((C1_first_match_wins c1_routes [] [] []
      { method := "GET", path := "/dup", params := [] } Response.init).2.1
        0 c1_r0 rfl).1
  · exact (C1_first_match_wins c1_routes [] [] []
      { method := "GET", path := "/absent", params := [] } Response.init).2.2 rfl

/-- C2: when the first matching route's handler throws, dispatch
catches the exception at the fault boundary and produces the 500
response whose body is the fixed prefix followed by the exception
message (so the body contains the message); no exception leaves
dispatch, which stays a total function into responses, and the accept
loop serves every connection of its input in turn. -/
theorem C2_handler_fault_500 :
    ∀ (routes : List Route) (fs : FileSystem) (req : Request) (j : Nat)
      (r : Route) (rexc : Response) (msg : String),
      first_match req routes = some (j, r) →
      r.handler { req with params := (match_route r req.path req.params).2 }
          Response.init = HandlerResult.thrown rexc msg →
      dispatch_request [] routes [] fs req Response.init
        = ((rexc.status 500).text ("Internal Server Error: " ++ msg),
           [Event.router, Event.handler j])
      ∧ ((rexc.status 500).text ("Internal Server Error: " ++ msg)).status_code_ = 500
      ∧ msg.toList
          <:+: ((rexc.status 500).text ("Internal Server Error: " ++ msg)).body_.toList
      ∧ ∀ (parse : String → Request) (pipeline : Request → Response)
          (inputs : List (List Char)),
          (serve_connections parse pipeline inputs).length = inputs.length := by
  intro routes fs req j r rexc msg hfm hthrow
  refine ⟨?_, rfl, ?_, ?_⟩
  · rw [dispatch_routes_only_some routes fs req j r hfm]
    simp only [invoke_route, hthrow]
  · show msg.toList <:+: ("Internal Server Error: " ++ msg).toList
    simp only [String.toList]
    rw [String.data_append]
    exact (List.suffix_append _ _).isInfix
  · intro parse pipeline inputs
    simp [serve_connections]

theorem C2_witness :
    dispatch_request [] [c2_route] [] [] { method := "GET", path := "/boom", params := [] }
        Response.init
      = ((Response.init.status 500).text ("Internal Server Error: " ++ "boom"),
         [Event.router, Event.handler 0]) := by
  exact (C2_handler_fault_500 [c2_route] []
    { method := "GET", path := "/boom", params := [] } 0 c2_route Response.init
    "boom" rfl rfl).1

/-- C3: during one request, once the response is marked sent the chain
halts at its sent-flag guard before every later stage: from any cursor
position, a chain started on a sent response does nothing (the
static/router final stage is likewise guarded), and a middleware whose
body marks the response sent leaves a dispatch trace of that middleware
alone, whether or not it invoked its continuation, so the router never
runs. -/
theorem C3_sent_short_circuit :
    ∀ (mws : List MW) (routes : List Route) (mounts : List StaticMount)
      (fs : FileSystem) (req : Request) (res : Response) (i : Nat) (m : MW),
      (res.sent_ = true →
        run_middleware_chain req (final_handler routes mounts fs req) mws i res
          = (res, []))
      ∧ (res.sent_ = false → (m.pre req res).sent_ = true →
          (dispatch_request (m :: mws) routes mounts fs req res).2 = [Event.mw 0]) := by
  intro mws routes mounts fs req res i m
  constructor
  · exact chain_halts_when_sent req routes mounts fs mws i res
  · intro hs hsent
    unfold dispatch_request run_middleware_chain
    simp only [hs, Bool.false_eq_true, if_false]
    by_cases hc : m.callNext req (m.pre req res) = true
    · simp only [hc, if_true]
      rw [chain_halts_when_sent req routes mounts fs mws 1 (m.pre req res) hsent]
    · simp [hc]

theorem C3_witness :
    (dispatch_request [c3_mw] [c3_route] [] []
        { method := "GET", path := "/later", params := [] } Response.init).2
      = [Event.mw 0] := by
  exact (C3_sent_short_circuit [] [c3_route] [] []
    { method := "GET", path := "/later", params := [] } Response.init 0 c3_mw).2
    rfl rfl

/-- C4: when the first mount whose URL prefix starts the GET request's
path has a remainder containing the traversal token "..", static
resolution answers 403 Forbidden, claims the request, and reads no file
at all (so in particular no file outside the mount directory). -/
theorem C4_traversal_forbidden :
    ∀ (mounts : List StaticMount) (fs : FileSystem) (req : Request)
      (res : Response) (m : StaticMount),
      first_mount mounts req.path = some m →
      containsDotDot (static_remainder m req.path) = true →
      try_serve_static mounts fs req res
        = (true, (res.status 403).text "Forbidden", []) := by
  intro mounts
  induction mounts with
  | nil => intro fs req res m h _; simp [first_mount] at h
  | cons m0 rest ih =>
      intro fs req res m hf hdd
      by_cases hp : starts_with m0.urlPrefix req.path = true
      · have hm : m = m0 := by
          unfold first_mount at hf
          rw [if_pos hp] at hf
          exact (Option.some.inj hf).symm
        subst hm
        unfold try_serve_static
        have hne : ¬(static_remainder m req.path = "" ∨ static_remainder m req.path = "/") := by
          rintro (h1 | h1) <;> rw [h1] at hdd <;>
            simp [containsDotDot, contains_sub] at hdd
        simp only [hp, if_true, hne, if_false, hdd]
      · unfold first_mount at hf
        rw [if_neg hp] at hf
        unfold try_serve_static
        simp only [hp, Bool.false_eq_true, if_false]
        exact ih fs req res m hf hdd

theorem C4_witness :
    try_serve_static [c4_mount] [("./assets/secret.txt", "top secret")]
        { method := "GET", path := "/public/../secret.txt", params := [] }
        Response.init
      = (true, (Response.init.status 403).text "Forbidden", []) := by
  exact C4_traversal_forbidden [c4_mount] [("./assets/secret.txt", "top secret")]
    { method := "GET", path := "/public/../secret.txt", params := [] }
    Response.init c4_mount rfl (by decide)

theorem C10_witness :
    handle_client c10_parse c10_pipeline [] = none
    ∧ read_raw ['a', 'b'] = ['a', 'b'] := by
  constructor
  · exact (C10_single_bounded_read c10_parse c10_pipeline []).2.2.1 rfl
  · have h := (C10_single_bounded_read c10_parse c10_pipeline ['a', 'b']).2.2.2.1
      (by decide)
    exact h.trans (by decide)

theorem compile_scan_names :
    ∀ (cs : List Char) (mode : Option (List Char)),
      (compile_scan cs mode).2 = tok_names (compile_scan cs mode).1 := by
  intro cs
  induction cs with
  | nil => intro mode; cases mode <;> rfl
  | cons c rest ih =>
      intro mode
      cases mode with
      | some acc =>
          by_cases hc : c = '/'
          · simp only [compile_scan, hc, if_true, tok_names, List.filterMap_cons]
            simp only [tok_names] at ih
            rw [ih none]
          · simp only [compile_scan, hc, if_false]
            exact ih (some (c :: acc))
      | none =>
          by_cases h1 : c = ':'
          · subst h1
            simp only [compile_scan, if_pos rfl, if_true]
            exact ih (some [])
          · by_cases h2 : c = '*'
            · subst h2
              simp only [compile_scan, if_neg (by decide : ¬('*' : Char) = ':'),
                if_pos rfl, if_true, tok_names, List.filterMap_cons]
              simp only [tok_names] at ih
              rw [ih none]
            · simp only [compile_scan, if_neg h1, if_neg h2, tok_names,
                List.filterMap_cons]
              simp only [tok_names] at ih
              rw [ih none]

theorem toksCaps_lits_append :
    ∀ (cs : List Char) (ts : List Tok) (ds : List Char),
      toksCaps (cs.map Tok.lit ++ ts) (cs ++ ds) = toksCaps ts ds := by
  intro cs
  induction cs with
  | nil => intro ts ds; rfl
  | cons c cs1 ih =>
      intro ts ds
      simp only [List.map_cons, List.cons_append, toksCaps, if_pos rfl]
      exact ih ts ds

theorem toksCaps_lits_inv :
    ∀ (cs : List Char) (ts : List Tok) (es : List Char),
      (toksCaps (cs.map Tok.lit ++ ts) es).isSome = true →
      ∃ ds, es = cs ++ ds
        ∧ toksCaps (cs.map Tok.lit ++ ts) es = toksCaps ts ds := by
  intro cs
  induction cs with
  | nil => intro ts es _; exact ⟨es, rfl, rfl⟩
  | cons c cs1 ih =>
      intro ts es h
      cases es with
      | nil => simp [toksCaps] at h
      | cons e es1 =>
          by_cases hce : c = e
          · subst hce
            simp only [List.map_cons, List.cons_append, toksCaps, if_pos rfl] at h ⊢
            obtain ⟨ds, hds, heq⟩ := ih ts es1 h
            exact ⟨ds, by rw [hds], heq⟩
          · simp only [List.map_cons, List.cons_append, toksCaps, if_neg hce] at h
            simp at h

theorem tryDowns_first (f : Nat → Option (List String)) (k : Nat)
    (r : List String) (h : f (k + 1) = some r) : tryDowns f (k + 1) = some r := by
  unfold tryDowns
  rw [h]

theorem tryDowns_some (f : Nat → Option (List String)) :
    ∀ (n : Nat) (r : List String), tryDowns f n = some r →
      ∃ k, 1 ≤ k ∧ k ≤ n ∧ f k = some r := by
  intro n
  induction n with
  | zero => intro r h; simp [tryDowns] at h
  | succ n1 ih =>
      intro r h
      unfold tryDowns at h
      cases hf : f (n1 + 1) with
      | some r1 =>
          rw [hf] at h
          refine ⟨n1 + 1, by omega, by omega, ?_⟩
          rw [hf]
          simpa using h
      | none =>
          rw [hf] at h
          obtain ⟨k, h1, h2, h3⟩ := ih r h
          exact ⟨k, h1, by omega, h3⟩

theorem toksCaps_param_end_pos (n : String) (ds : List Char)
    (hne : ds ≠ []) (hns : ∀ c ∈ ds, c ≠ '/') :
    toksCaps [Tok.param n] ds = some [String.mk ds] := by
  have hrun : ds.takeWhile (fun c => c ≠ '/') = ds :=
    takeWhile_all _ ds (fun c hc => by simpa using hns c hc)
  obtain ⟨len1, hlen⟩ : ∃ l, ds.length = l + 1 := by
    cases ds with
    | nil => exact absurd rfl hne
    | cons d dtl => exact ⟨dtl.length, rfl⟩
  simp only [toksCaps, hrun, hlen]
  apply tryDowns_first
  rw [← hlen, List.drop_length, List.take_length]
  rfl

theorem toksCaps_param_end_inv (n : String) (ds : List Char)
    (h : (toksCaps [Tok.param n] ds).isSome = true) :
    ds ≠ [] ∧ ∀ c ∈ ds, c ≠ '/' := by
  simp only [toksCaps] at h
  obtain ⟨r, hr⟩ := Option.isSome_iff_exists.mp h
  obtain ⟨k, h1, h2, h3⟩ := tryDowns_some _ _ r hr
  rw [Option.map_eq_some'] at h3
  obtain ⟨caps, hcaps, _⟩ := h3
  have hdrop : ds.drop k = [] := by
    cases hd : ds.drop k with
    | nil => rfl
    | cons x xs => rw [hd] at hcaps; simp [toksCaps] at hcaps
  have hklen : ds.length ≤ k := by
    have hiff := List.drop_eq_nil_iff.mp hdrop
    exact hiff
  have hrunle : (ds.takeWhile (fun c => c ≠ '/')).length ≤ ds.length :=
    ( List.takeWhile_prefix _ : _ <+: ds).sublist.length_le
  have heqlen : (ds.takeWhile (fun c => c ≠ '/')).length = ds.length := by omega
  have htw : ds.takeWhile (fun c => c ≠ '/') = ds :=
    ( List.takeWhile_prefix _ : _ <+: ds).eq_of_length heqlen
  constructor
  · intro hnil
    subst hnil
    simp at hklen h2
    omega
  · intro c hc
    have hmem : c ∈ ds.takeWhile (fun c => c ≠ '/') := by rw [htw]; exact hc
    have hp := List.mem_takeWhile_imp hmem
    simpa using hp

/-- C8: the pattern compiler collects the parameter names in declaration
order, one per capturing group; for the pattern /greet/:name the name
list is exactly [name], and route matching against it succeeds precisely
on the paths /greet/ followed by one or more non-slash characters (the
both-ends anchoring: nothing shorter, longer or shifted matches),
extracting the parameter map with name bound to the captured segment; in
particular /greet/World extracts name = World. -/
theorem C8_pattern_compiler :
    ∀ (pat : String) (w : String) (s : String),
      (compile_pattern "/greet/:name").2 = ["name"]
      ∧ (compile_pattern pat).2 = tok_names (compile_pattern pat).1
      ∧ (w ≠ "" → (∀ c ∈ w.toList, c ≠ '/') →
          match_route greet_route ("/greet/" ++ w) [] = (true, [("name", w)]))
      ∧ ((match_route greet_route s []).1 = true →
          ∃ ws : List Char, s.toList = "/greet/".toList ++ ws ∧ ws ≠ []
            ∧ ∀ c ∈ ws, c ≠ '/') := by
  intro pat w s
  refine ⟨by decide, compile_scan_names pat.toList none, ?_, ?_⟩
  · intro hne hns
    have hwl : w.toList ≠ [] := by
      intro hx
      exact hne (by cases w with | mk d => simpa [String.toList] using congrArg String.mk hx)
    have hcaps :
        toksCaps ("/greet/".toList.map Tok.lit ++ [Tok.param "name"])
          (("/greet/" ++ w).toList) = some [w] := by
      have htl : ("/greet/" ++ w).toList = "/greet/".toList ++ w.toList := rfl
      rw [htl, toksCaps_lits_append, toksCaps_param_end_pos "name" w.toList hwl hns]
      cases w with
      | mk d => rfl
    show match_route greet_route ("/greet/" ++ w) [] = (true, [("name", w)])
    unfold match_route
    have hts : greet_route.toks = "/greet/".toList.map Tok.lit ++ [Tok.param "name"] := by
      decide
    rw [hts, hcaps]
    rfl
  · intro h
    unfold match_route at h
    have hts : greet_route.toks = "/greet/".toList.map Tok.lit ++ [Tok.param "name"] := by
      decide
    rw [hts] at h
    cases hc : toksCaps ("/greet/".toList.map Tok.lit ++ [Tok.param "name"]) s.toList with
    | none => rw [hc] at h; simp at h
    | some caps =>
        obtain ⟨ds, hes, heq⟩ :=
          toksCaps_lits_inv "/greet/".toList [Tok.param "name"] s.toList
            (by rw [hc]; rfl)
        have hparam : (toksCaps [Tok.param "name"] ds).isSome = true := by
          rw [← heq, hc]; rfl
        obtain ⟨hne, hns⟩ := toksCaps_param_end_inv "name" ds hparam
        exact ⟨ds, hes, hne, hns⟩

theorem C8_witness :
    match_route greet_route ("/greet/" ++ "World") [] = (true, [("name", "World")]) := by
  exact (C8_pattern_compiler "" "World" "").2.2.1 (by decide) (by decide)

end luaweb
